import Mathlib

/-!
Shallow embedding of `src/vs/workbench/api/node/extHostWorkspace.ts`
(the workspace-folder model of the extension host) together with the
small collaborator primitives it calls (string comparison, sorted-list
delta, the path-keyed lookup structure, POSIX path helpers).  Pure
functions of the source become Lean functions; the mutable fields of
`ExtHostWorkspace` (`_workspace`, the static `_requestIdPool`, the
change-event emitter and the outgoing proxy calls) become an explicit
state record threaded through the operations.
-/

set_option maxHeartbeats 1000000

/-! ## Character-list helpers

JavaScript strings are modelled as Lean `String`s; the helpers below work
on `String.data` with structural recursion so that every definition
evaluates by kernel reduction. -/

/-- JS-style three-way lexicographic comparison of character lists
(`-1` / `0` / `1`), the semantics of `a < b ? -1 : a > b ? 1 : 0`
on JS strings. -/
def chCmp : List Char → List Char → Int
  | [], [] => 0
  | [], _ :: _ => -1
  | _ :: _, [] => 1
  | a :: as, b :: bs => if a < b then -1 else if b < a then 1 else chCmp as bs

/-- `compare` from `vs/base/common/strings` (outside `src/`):
`if (a < b) return -1; if (a > b) return 1; return 0`. -/
def strcmp (a b : String) : Int := chCmp a.data b.data

/-- `chLeads p s` holds when `p` is a leading run of `s`
(the JS `s.startsWith(p)`). -/
def chLeads : List Char → List Char → Bool
  | [], _ => true
  | _ :: _, [] => false
  | p :: ps, s :: ss => p = s && chLeads ps ss

/-- `strLeads p s`: `p` is an initial substring of `s`. -/
def strLeads (p s : String) : Bool := chLeads p.data s.data

/-- Split a character list at every occurrence of `sep`
(the JS `s.split(sep)` for a one-character separator). -/
def chSplit (sep : Char) : List Char → List (List Char)
  | [] => [[]]
  | c :: cs =>
    let r := chSplit sep cs
    if c = sep then [] :: r
    else
      match r with
      | [] => [[c]]
      | g :: gs => (c :: g) :: gs

/-- Join character-list segments with the separator `sep`
(inverse direction of `chSplit`). -/
def chJoin (sep : Char) : List (List Char) → List Char
  | [] => []
  | [g] => g
  | g :: gs => g ++ sep :: chJoin sep gs

/-- ASCII lower-casing of a string, as used by the case-insensitive
resource comparison of `vs/base/common/strings` (outside `src/`). -/
def lowerStr (s : String) : String := String.mk (s.data.map Char.toLower)

/-! ## POSIX path helpers (Node `path` module and `vs/base/common/paths`) -/

/-- Node's POSIX `path.dirname` for the path strings that occur here
(URI paths): everything before the final separator, `/` when the result
would be the root, `.` when the input has no separator at all. -/
def dirname (p : String) : String :=
  match (chSplit '/' p.data).dropLast with
  | [] => "."
  | [[]] => "/"
  | gs => String.mk (chJoin '/' gs)

/-- `basename` of `vs/base/common/paths` (outside `src/`): the part of
the path after the last separator (empty for a trailing separator, the
whole path when there is no separator). -/
def pathBasename (p : String) : String :=
  String.mk ((chSplit '/' p.data).getLastD [])

/-- Node's POSIX `path.relative` for absolute inputs: strip the common
leading segments, then climb with `..` for every remaining segment of
`fromP` and descend into the remaining segments of `toP`. -/
def commonSegs : List (List Char) → List (List Char) → Nat
  | a :: as, b :: bs => if a = b then commonSegs as bs + 1 else 0
  | _, _ => 0

/-- See `commonSegs`; this is the `relative(from, to)` call used by
`getRelativePath`. -/
def relative (fromP toP : String) : String :=
  let fs := (chSplit '/' fromP.data).filter (fun g => g ≠ [])
  let ts := (chSplit '/' toP.data).filter (fun g => g ≠ [])
  let k := commonSegs fs ts
  String.mk (chJoin '/' (List.replicate (fs.length - k) ['.', '.'] ++ ts.drop k))

/-- Modelled from the spec: the path-normalization primitive of
`vs/base/common/paths` (outside `src/`, an excluded collaborator in the
spec).  Collapses repeated separators and drops `.` segments; the
`toOSPath` flag selects OS separators and is the identity on POSIX,
which is the platform modelled here. -/
def pathNormalize (p : String) (_toOSPath : Bool) : String :=
  let isAbs := chLeads ['/'] p.data
  let segs := (chSplit '/' p.data).filter (fun g => g ≠ [] && g ≠ ['.'])
  String.mk ((if isAbs then ['/'] else []) ++ chJoin '/' segs)

/-! ## URIs (`vs/base/common/uri`, outside `src/`)

Only the behavior exercised by `extHostWorkspace.ts` is modelled:
file-style URIs with scheme, authority and path components, `toString`
without percent-encoding, POSIX `fsPath`, and `with({path})`. -/

structure Uri where
  scheme : String
  authority : String
  path : String
deriving DecidableEq, Repr

/-- `URI.toString()` of the modelled URIs: `scheme://authority/path`
(for file URIs with empty authority this is the familiar `file:///…`). -/
def Uri.toString (u : Uri) : String := u.scheme ++ "://" ++ u.authority ++ u.path

/-- `URI.file(path)` for absolute POSIX paths. -/
def Uri.file (p : String) : Uri := { scheme := "file", authority := "", path := p }

/-- POSIX `uri.fsPath` of a file URI: its path component. -/
def Uri.fsPath (u : Uri) : String := u.path

/-- `isEqual` from `vs/base/common/resources` (outside `src/`): string
equality of the rendered URIs, lower-cased first when `ignoreCase`. -/
def uriIsEqual (a b : Uri) (ignoreCase : Bool) : Bool :=
  if ignoreCase then lowerStr a.toString == lowerStr b.toString
  else a.toString == b.toString

/-! ## Folder records and protocol data -/

/-- A `vscode.WorkspaceFolder` record: `{ uri, name, index }`. -/
structure WorkspaceFolder where
  uri : Uri
  name : String
  index : Nat
deriving DecidableEq, Repr

/-- `URI.revive`/`new WorkspaceFolder` round-trip: rebuilding a folder
record from its three components (the identity on this model). -/
def reviveFolder (f : WorkspaceFolder) : WorkspaceFolder :=
  { uri := f.uri, name := f.name, index := f.index }

/-- An entry of the `workspaceFoldersToAdd` rest parameter of
`updateWorkspaceFolders`: `{ uri, name? }`. -/
structure FolderToAdd where
  uri : Uri
  name : Option String
deriving DecidableEq, Repr

/-- `IWorkspaceData` of `extHost.protocol`: the authoritative snapshot
pushed into `$acceptWorkspaceData`. -/
structure IWorkspaceData where
  id : String
  name : String
  folders : List WorkspaceFolder
deriving DecidableEq, Repr

/-- The payload of `onDidChangeWorkspace`
(`vscode.WorkspaceFoldersChangeEvent`), frozen on publication. -/
structure ChangeEvent where
  added : List WorkspaceFolder
  removed : List WorkspaceFolder
deriving DecidableEq, Repr

/-! ## `delta` (`vs/base/common/arrays`, outside `src/`)

Modelled from the spec (FolderSetDiffer, a sorted merge-style
comparison).  The source's `while (true)` loop over two cursors is
restructured into structural recursion: `deltaCore` recurses on the
first list and `deltaStep` walks the second list for one element of the
first, receiving the continuation for the remaining first list.  The
result pair is `(removed, added)`. -/

def deltaStep {α : Type} (cmp : α → α → Int) (x : α)
    (k : List α → List α × List α) : List α → List α × List α
  | [] =>
    let r := k []
    (x :: r.1, r.2)
  | y :: ys =>
    if cmp x y = 0 then k ys
    else if cmp x y < 0 then
      let r := k (y :: ys)
      (x :: r.1, r.2)
    else
      let r := deltaStep cmp x k ys
      (r.1, y :: r.2)

/-- See `deltaStep`. -/
def deltaCore {α : Type} (cmp : α → α → Int) : List α → List α → List α × List α
  | [], ys => ([], ys)
  | x :: xs, ys => deltaStep cmp x (deltaCore cmp xs) ys

/-- `delta(before, after, compare)`: `.1` is `removed`, `.2` is `added`. -/
def delta {α : Type} (before after : List α) (cmp : α → α → Int) : List α × List α :=
  deltaCore cmp before after

/-! ## PathIndex (`TernarySearchTree.forPaths` of `vs/base/common/map`,
outside `src/`)

Modelled from the spec (PathIndex, spec section 4.1): a map from
normalized folder-identifier strings to folder records supporting
insert-or-replace by key, exact lookup, and `findSubstr`, the query for
the entry whose key is the longest path-segment ancestor of (or equal
to) the query key.  The tree is represented by its entry list. -/

abbrev PathIndex := List (String × WorkspaceFolder)

/-- `k` is a path-segment ancestor of `q` or equal to it: `k = q` or
`k ++ "/"` starts `q` (segment-boundary aware, not raw prefixing). -/
def isPathAncestorOrEqual (k q : String) : Bool :=
  k == q || strLeads (k ++ "/") q

/-- `set(key, value)`: replace the entry with this key, or append. -/
def PathIndex.set (t : PathIndex) (k : String) (v : WorkspaceFolder) : PathIndex :=
  if t.any (fun e => e.1 == k) then
    t.map (fun e => if e.1 == k then (k, v) else e)
  else t ++ [(k, v)]

/-- `get(key)`: exact-key lookup. -/
def PathIndex.get (t : PathIndex) (k : String) : Option WorkspaceFolder :=
  (t.find? (fun e => e.1 == k)).map (fun e => e.2)

/-- `findSubstr(query)`: the value stored under the longest key that is
a path-segment ancestor of (or equal to) the query. -/
def PathIndex.findSubstr (t : PathIndex) (q : String) : Option WorkspaceFolder :=
  match t.filter (fun e => isPathAncestorOrEqual e.1 q) with
  | [] => none
  | e :: es =>
    some ((es.foldl (fun best x => if best.1.length < x.1.length then x else best) e).2)

/-! ## `Workspace2` (the in-memory workspace model)

`Workspace2 extends Workspace`: the base-class data (`id`, `name`,
`folders`) is fixed at construction; the subclass adds the mutable
`_workspaceFolders` copy and the `_structure` path index, both built
from `folders` in the constructor. -/

structure Workspace2 where
  id : String
  name : String
  /-- `this.folders` of the base `Workspace` class, set at construction. -/
  folders : List WorkspaceFolder
  /-- `this._workspaceFolders`, the list later replaced by
  `trySetWorkspaceFolders`. -/
  workspaceFolders : List WorkspaceFolder
  /-- `this._structure`, the path index built in the constructor. -/
  struct : PathIndex
deriving DecidableEq, Repr

/-- The constructor's index build: `folders.forEach(f => structure.set(f.uri.toString(), f))`. -/
def foldIndex (t : PathIndex) (folders : List WorkspaceFolder) : PathIndex :=
  folders.foldl (fun t f => t.set f.uri.toString f) t

/-- Index of a folder list, starting from the empty tree. -/
def buildIndex (folders : List WorkspaceFolder) : PathIndex :=
  foldIndex [] folders

/-- `Workspace2.fromData`: `null` data gives no workspace, otherwise the
constructor builds the folder copy and the path index from the revived
folder records. -/
def Workspace2.fromData : Option IWorkspaceData → Option Workspace2
  | none => none
  | some data =>
    let folders := data.folders.map reviveFolder
    some { id := data.id, name := data.name, folders := folders,
           workspaceFolders := folders, struct := buildIndex folders }

/-- `trySetWorkspaceFolders`: replaces `_workspaceFolders` with revived
copies; `folders` and `_structure` are left untouched. -/
def Workspace2.trySetWorkspaceFolders (w : Workspace2) (folders : List WorkspaceFolder) : Workspace2 :=
  { w with workspaceFolders := folders.map reviveFolder }

/-- `Workspace2.getWorkspaceFolder(uri, resolveParent?)`: when
`resolveParent` is set and `uri` is itself a stored folder key, the
query is redirected to the parent directory of the uri; then the path
index answers the containment query. -/
def Workspace2.getWorkspaceFolder (w : Workspace2) (uri : Uri) (resolveParent : Bool) :
    Option WorkspaceFolder :=
  let uri := if resolveParent && (w.struct.get uri.toString).isSome
             then { uri with path := dirname uri.path } else uri
  w.struct.findSubstr uri.toString

/-! ## The `ExtHostWorkspace` state and operations

The mutable pieces of the class (`_workspace`, the static
`_requestIdPool`, the events fired on `_onDidChangeWorkspace` and the
calls sent to the `MainThreadWorkspaceShape` proxy) form the state
record; each method becomes a function of this state. -/

/-- One outgoing call on the `MainThreadWorkspaceShape` proxy. -/
inductive ProxyCall where
  | updateWorkspaceFolders (extensionName : String) (index deleteCount : Int)
      (foldersToAdd : List FolderToAdd)
  | startSearch (includePattern includeFolder excludePattern : Option String)
      (maxResults : Option Nat) (requestId : Nat)
  | cancelSearch (requestId : Nat)
  | saveAll (includeUntitled : Option Bool)
deriving DecidableEq, Repr

structure ExtHostState where
  workspace : Option Workspace2
  /-- The static `_requestIdPool` counter. -/
  requestIdPool : Nat
  /-- Events fired on `_onDidChangeWorkspace`, oldest first. -/
  events : List ChangeEvent
  /-- Calls dispatched to the main-thread proxy, oldest first. -/
  proxyCalls : List ProxyCall
deriving DecidableEq, Repr

/-- The constructor: `_workspace = Workspace2.fromData(data)`, counter
and histories empty. -/
def initialState (data : Option IWorkspaceData) : ExtHostState :=
  { workspace := Workspace2.fromData data, requestIdPool := 0, events := [], proxyCalls := [] }

/-- `getWorkspaceFolders()`: `undefined` without a workspace, otherwise
a copy of the current folder list. -/
def getWorkspaceFolders (s : ExtHostState) : Option (List WorkspaceFolder) :=
  match s.workspace with
  | none => none
  | some w => some w.workspaceFolders

/-- `getWorkspaceFolder(uri, resolveParent?)` on the controller:
`undefined` without a workspace, else the model query. -/
def getWorkspaceFolder (s : ExtHostState) (uri : Uri) (resolveParent : Bool) :
    Option WorkspaceFolder :=
  match s.workspace with
  | none => none
  | some w => w.getWorkspaceFolder uri resolveParent

/-- `getPath()`: the legacy accessor reading the base-class `folders`
list; `undefined` without a workspace or with an empty folder list,
otherwise the fsPath of folder 0. -/
def getPath (s : ExtHostState) : Option String :=
  match s.workspace with
  | none => none
  | some w =>
    match w.folders with
    | [] => none
    | f :: _ => some f.uri.fsPath

/-- `_compareWorkspaceFolderByUri`: identifier-only comparison. -/
def compareWorkspaceFolderByUri (a b : WorkspaceFolder) : Int :=
  strcmp a.uri.toString b.uri.toString

/-- `_compareWorkspaceFolderByUriAndName`: the sum of the identifier
comparison and the name comparison. -/
def compareWorkspaceFolderByUriAndName (a b : WorkspaceFolder) : Int :=
  strcmp a.uri.toString b.uri.toString + strcmp a.name b.name

/-- Insertion step of the comparator sort. -/
def insertSorted {α : Type} (cmp : α → α → Int) (x : α) : List α → List α
  | [] => [x]
  | y :: ys => if cmp x y ≤ 0 then x :: y :: ys else y :: insertSorted cmp x ys

/-- `Array.prototype.sort(cmp)` on a fresh copy, modelled as insertion
sort by the comparator. -/
def sortBy {α : Type} (cmp : α → α → Int) (l : List α) : List α :=
  l.foldr (insertSorted cmp) []

/-- The dedup loop of `updateWorkspaceFolders`: keep a folder-to-add
when no already-kept entry has an `isEqual` uri (case-insensitive on
case-insensitive platforms, i.e. `!isLinux`).  The `URI.isUri` guard is
always true on this typed model. -/
def validateDistinct (isLinux : Bool) (l : List FolderToAdd) : List FolderToAdd :=
  l.foldl (fun acc f =>
    if acc.any (fun g => uriIsEqual g.uri f.uri (!isLinux)) then acc else acc ++ [f]) []

/-- `f.name || basenameOrAuthority(f.uri)`: an absent or empty name
falls back to the basename of the uri path (or the authority when the
basename is empty), per `vs/base/common/resources` (outside `src/`). -/
def folderNameOf (f : FolderToAdd) : String :=
  let fallback := let b := pathBasename f.uri.path; if b = "" then f.uri.authority else b
  match f.name with
  | some n => if n = "" then fallback else n
  | none => fallback

/-- `.map((f, index) => ({...}))`: Array `map` with the element index. -/
def mapWithIndexFrom {α β : Type} (f : Nat → α → β) (i : Nat) : List α → List β
  | [] => []
  | x :: xs => f i x :: mapWithIndexFrom f (i + 1) xs

/-- See `mapWithIndexFrom` (indices from 0). -/
def mapWithIndex {α β : Type} (f : Nat → α → β) (l : List α) : List β :=
  mapWithIndexFrom f 0 l

/-- The folder records spliced in: display name defaulted, index = the
position inside the additions array. -/
def mkAddedFolders (validated : List FolderToAdd) : List WorkspaceFolder :=
  mapWithIndex (fun i f => { uri := f.uri, name := folderNameOf f, index := i }) validated

/-- `Array.prototype.splice(start, deleteCount, ...items)` on a copy,
for `start + deleteCount ≤ length` as validated by the caller. -/
def spliceList {α : Type} (l : List α) (start deleteCount : Nat) (items : List α) : List α :=
  l.take start ++ items ++ l.drop (start + deleteCount)

/-- `this._workspace ? this._workspace.workspaceFolders : []`. -/
def currentFolders (s : ExtHostState) : List WorkspaceFolder :=
  match s.workspace with
  | none => []
  | some w => w.workspaceFolders

/-- The prospective folder list computed by `updateWorkspaceFolders`. -/
def prospectiveFolders (s : ExtHostState) (i d : Nat) (validated : List FolderToAdd) :
    List WorkspaceFolder :=
  spliceList (currentFolders s) i d (mkAddedFolders validated)

/-- `updateWorkspaceFolders(extensionName, index, deleteCount,
...workspaceFoldersToAdd)`.  `index` and `deleteCount` are `Option Int`
(`none` models a non-number argument for the `typeof i !== 'number'`
check).  Returns the boolean result and the successor state; the
function is total, so no path throws.  On success the proxy call is
dispatched (fire-and-forget) and the optimistic local update is applied
when a workspace exists. -/
def updateWorkspaceFolders (isLinux : Bool) (s : ExtHostState) (extensionName : String)
    (index deleteCount : Option Int) (workspaceFoldersToAdd : List FolderToAdd) :
    Bool × ExtHostState :=
  let validated := validateDistinct isLinux workspaceFoldersToAdd
  match index, deleteCount with
  | some i, some d =>
    if i < 0 ∨ d < 0 then (false, s)
    else if d = 0 ∧ validated = [] then (false, s)
    else if ((currentFolders s).length : Int) < i + d then (false, s)
    else
      let newList := prospectiveFolders s i.toNat d.toNat validated
      let dl := delta (currentFolders s) newList compareWorkspaceFolderByUriAndName
      if dl.1 = [] ∧ dl.2 = [] then (false, s)
      else
        (true,
          { s with
            proxyCalls := s.proxyCalls ++
              [ProxyCall.updateWorkspaceFolders extensionName i d validated],
            workspace := s.workspace.map (fun w => w.trySetWorkspaceFolders newList) })
  | _, _ => (false, s)

/-- `$acceptWorkspaceData(data)`: rebuild the model from the
authoritative snapshot, diff the identifier-sorted old and new folder
lists with the identifier-only comparator, and fire the (frozen) change
event. -/
def acceptWorkspaceData (s : ExtHostState) (data : Option IWorkspaceData) : ExtHostState :=
  let oldRoots := match s.workspace with
    | none => []
    | some w => sortBy compareWorkspaceFolderByUri w.workspaceFolders
  let newWorkspace := Workspace2.fromData data
  let newRoots := match newWorkspace with
    | none => []
    | some w => sortBy compareWorkspaceFolderByUri w.workspaceFolders
  let dl := delta oldRoots newRoots compareWorkspaceFolderByUri
  { s with workspace := newWorkspace,
           events := s.events ++ [{ added := dl.2, removed := dl.1 }] }

/-- `this.workspace.folders.length` read by `getRelativePath` when
`includeWorkspace` is left unspecified (reachable only with a present
workspace, since a folder was found). -/
def baseFoldersLength (s : ExtHostState) : Nat :=
  match s.workspace with
  | none => 0
  | some w => w.folders.length

/-- The effective `includeWorkspace` flag of `getRelativePath`:
explicit when supplied, otherwise whether the base folder list has more
than one entry. -/
def includeWorkspaceFlag (s : ExtHostState) : Option Bool → Bool
  | some b => b
  | none => decide (1 < baseFoldersLength s)

/-- The `string | vscode.Uri | undefined` argument of
`getRelativePath`. -/
inductive PathOrUri where
  | str (p : String)
  | uri (u : Uri)
  | undef
deriving DecidableEq, Repr

/-- `getRelativePath(pathOrUri, includeWorkspace?)`: `none` models the
`undefined` return for an absent input; an empty path is echoed back;
with no owning folder the input path is echoed back; otherwise the path
relative to the owning folder (resolved with `resolveParent = true`),
name-prefixed per `includeWorkspaceFlag`, normalized. -/
def getRelativePath (s : ExtHostState) (pathOrUri : PathOrUri)
    (includeWorkspace : Option Bool) : Option String :=
  let path? : Option String := match pathOrUri with
    | .str p => some p
    | .uri u => some u.fsPath
    | .undef => none
  match path? with
  | none => none
  | some path =>
    if path = "" then some path
    else
      let queryUri := match pathOrUri with
        | .str p => Uri.file p
        | .uri u => u
        | .undef => Uri.file ""
      match getWorkspaceFolder s queryUri true with
      | none => some path
      | some folder =>
        let result := relative folder.uri.fsPath path
        let result := if includeWorkspaceFlag s includeWorkspace
                      then folder.name ++ "/" ++ result else result
        some (pathNormalize result true)

/-- The `vscode.GlobPattern` argument of `findFiles`: a plain pattern
string or a `RelativePattern { base, pattern }`. -/
inductive GlobPattern where
  | str (pattern : String)
  | rel (base pattern : String)
deriving DecidableEq, Repr

/-- JS truthiness of a possibly-undefined glob pattern (an empty
pattern string is falsy, an object is always truthy). -/
def globTruthy : Option GlobPattern → Bool
  | none => false
  | some (.str p) => p ≠ ""
  | some (.rel _ _) => true

/-- `findFiles(include, exclude, maxResults?, token?)`: allocates
`_requestIdPool++` as the request id, extracts the pattern strings, and
dispatches `$startSearch`.  The returned `Nat` is the allocated request
id; a supplied cancellation token later firing is modelled by the
separate `Op.cancelRequested` step, which sends `$cancelSearch` with
this id. -/
def findFiles (s : ExtHostState) (includePat excludePat : Option GlobPattern)
    (maxResults : Option Nat) (_hasToken : Bool) : Nat × ExtHostState :=
  let requestId := s.requestIdPool
  let includePattern : Option String :=
    if globTruthy includePat then
      match includePat with
      | some (.str p) => some p
      | some (.rel _ p) => some p
      | none => none
    else none
  let includeFolder : Option String :=
    if globTruthy includePat then
      match includePat with
      | some (.rel b _) => some b
      | _ => none
    else none
  let excludePattern : Option String :=
    if globTruthy excludePat then
      match excludePat with
      | some (.str p) => some p
      | some (.rel _ p) => some p
      | none => none
    else none
  (requestId,
    { s with requestIdPool := requestId + 1,
             proxyCalls := s.proxyCalls ++
               [ProxyCall.startSearch includePattern includeFolder excludePattern
                 maxResults requestId] })

/-- `saveAll(includeUntitled?)`: a pure forward to the proxy. -/
def saveAll (s : ExtHostState) (includeUntitled : Option Bool) : ExtHostState :=
  { s with proxyCalls := s.proxyCalls ++ [ProxyCall.saveAll includeUntitled] }

/-- One externally-triggered step of the controller: a public operation
call, a cancellation token firing, or an authoritative push. -/
inductive Op where
  | findFiles (includePat excludePat : Option GlobPattern) (maxResults : Option Nat)
      (hasToken : Bool)
  | cancelRequested (requestId : Nat)
  | acceptData (data : Option IWorkspaceData)
  | update (isLinux : Bool) (extensionName : String) (index deleteCount : Option Int)
      (adds : List FolderToAdd)
  | saveAll (includeUntitled : Option Bool)
deriving DecidableEq, Repr

/-- State transition of one step. -/
def step (s : ExtHostState) : Op → ExtHostState
  | .findFiles i e m t => (findFiles s i e m t).2
  | .cancelRequested rid => { s with proxyCalls := s.proxyCalls ++ [ProxyCall.cancelSearch rid] }
  | .acceptData d => acceptWorkspaceData s d
  | .update il ext i d adds => (updateWorkspaceFolders il s ext i d adds).2
  | .saveAll b => saveAll s b

/-- The request identifiers allocated by the `findFiles` calls of an
operation sequence, in call order. -/
def findFilesIds (s : ExtHostState) : List Op → List Nat
  | [] => []
  | op :: ops =>
    let rest := findFilesIds (step s op) ops
    match op with
    | .findFiles i e m t => (findFiles s i e m t).1 :: rest
    | _ => rest

/-! ## Helper lemmas about the collaborator primitives -/

theorem chCmp_self (cs : List Char) : chCmp cs cs = 0 := by
  induction cs with
  | nil => rfl
  | cons a as ih => simp [chCmp, ih]

theorem strcmp_self (s : String) : strcmp s s = 0 := chCmp_self s.data

theorem compareWorkspaceFolderByUri_self (f : WorkspaceFolder) :
    compareWorkspaceFolderByUri f f = 0 := strcmp_self _

theorem compareWorkspaceFolderByUriAndName_self (f : WorkspaceFolder) :
    compareWorkspaceFolderByUriAndName f f = 0 := by
  simp [compareWorkspaceFolderByUriAndName, strcmp_self]

theorem reviveFolder_eq (f : WorkspaceFolder) : reviveFolder f = f := rfl

theorem map_reviveFolder (l : List WorkspaceFolder) : l.map reviveFolder = l := by
  have h : reviveFolder = id := funext (fun f => reviveFolder_eq f)
  rw [h, List.map_id]

/-- `delta` of two lists is empty in both components exactly when the
lists match pairwise under the comparator (same length, comparator zero
at every position). -/
theorem delta_eq_nil_iff {α : Type} (cmp : α → α → Int) :
    ∀ (a b : List α), delta a b cmp = ([], []) ↔
      List.Forall₂ (fun x y => cmp x y = 0) a b := by
  intro a
  induction a with
  | nil =>
    intro b
    cases b with
    | nil => simp [delta, deltaCore]
    | cons y ys => simp [delta, deltaCore]
  | cons x xs ih =>
    intro b
    induction b with
    | nil =>
      constructor
      · intro h
        exfalso
        have h1 : (delta (x :: xs) [] cmp).1 = x :: ((deltaCore cmp xs []).1) := rfl
        rw [h] at h1
        simp at h1
      · intro h
        exact absurd h (by simp)
    | cons y ys ihb =>
      by_cases h0 : cmp x y = 0
      · have hd : delta (x :: xs) (y :: ys) cmp = delta xs ys cmp := by
          simp [delta, deltaCore, deltaStep, h0]
        rw [hd, ih ys]
        constructor
        · intro h; exact List.Forall₂.cons h0 h
        · intro h; cases h; assumption
      · by_cases hlt : cmp x y < 0
        · have hd : delta (x :: xs) (y :: ys) cmp =
              (x :: (delta xs (y :: ys) cmp).1, (delta xs (y :: ys) cmp).2) := by
            simp [delta, deltaCore, deltaStep, h0, hlt]
          rw [hd]
          constructor
          · intro h; simp at h
          · intro h; cases h; exact absurd ‹cmp x y = 0› h0
        · have hd : delta (x :: xs) (y :: ys) cmp =
              ((delta (x :: xs) ys cmp).1, y :: (delta (x :: xs) ys cmp).2) := by
            simp [delta, deltaCore, deltaStep, h0, hlt]
          rw [hd]
          constructor
          · intro h; simp at h
          · intro h; cases h; exact absurd ‹cmp x y = 0› h0

/-- Diffing a list against itself with a reflexive-zero comparator
yields empty added and removed sets. -/
theorem delta_self {α : Type} (cmp : α → α → Int) (h : ∀ x, cmp x x = 0) (l : List α) :
    delta l l cmp = ([], []) := by
  rw [delta_eq_nil_iff]
  exact List.forall₂_same.2 (fun x _ => h x)

/-! ## Characterization lemmas for `updateWorkspaceFolders` -/

/-- Every `false` return of `updateWorkspaceFolders` leaves the state
untouched (all rejection paths return before any mutation or
dispatch). -/
theorem update_state_of_false (isLinux : Bool) (s : ExtHostState) (ext : String)
    (io dopt : Option Int) (adds : List FolderToAdd)
    (h : (updateWorkspaceFolders isLinux s ext io dopt adds).1 = false) :
    (updateWorkspaceFolders isLinux s ext io dopt adds).2 = s := by
  unfold updateWorkspaceFolders at h ⊢
  cases io with
  | none => rfl
  | some i =>
    cases dopt with
    | none => rfl
    | some d =>
      simp only at h ⊢
      split
      · rfl
      · split
        · rfl
        · split
          · rfl
          · split
            · rfl
            · simp_all

/-- A `true` return of `updateWorkspaceFolders` pins down everything:
the arguments were numeric and non-negative, the range check passed,
the identifier-and-name delta against the prospective list was
non-empty, and the successor state is the old state plus the dispatched
proxy call and the optimistic folder swap. -/
theorem update_true_elim (isLinux : Bool) (s : ExtHostState) (ext : String)
    (io dopt : Option Int) (adds : List FolderToAdd)
    (h : (updateWorkspaceFolders isLinux s ext io dopt adds).1 = true) :
    ∃ i d, io = some i ∧ dopt = some d ∧ 0 ≤ i ∧ 0 ≤ d ∧
      ¬(d = 0 ∧ validateDistinct isLinux adds = []) ∧
      (i + d : Int) ≤ (currentFolders s).length ∧
      delta (currentFolders s) (prospectiveFolders s i.toNat d.toNat (validateDistinct isLinux adds))
        compareWorkspaceFolderByUriAndName ≠ ([], []) ∧
      (updateWorkspaceFolders isLinux s ext io dopt adds).2 =
        { s with
          proxyCalls := s.proxyCalls ++
            [ProxyCall.updateWorkspaceFolders ext i d (validateDistinct isLinux adds)],
          workspace := s.workspace.map (fun w =>
            w.trySetWorkspaceFolders
              (prospectiveFolders s i.toNat d.toNat (validateDistinct isLinux adds))) } := by
  unfold updateWorkspaceFolders at h ⊢
  cases io with
  | none => simp at h
  | some i =>
    cases dopt with
    | none => simp at h
    | some d =>
      simp only at h ⊢
      refine ⟨i, d, rfl, rfl, ?_⟩
      split at h
      · simp at h
      · split at h
        · simp at h
        · split at h
          · simp at h
          · split at h
            · simp at h
            · rename_i hneg hnothing hrange hdelta
              push_neg at hneg
              refine ⟨hneg.1, hneg.2, hnothing, by omega, ?_, ?_⟩
              · intro hcon
                exact hdelta ⟨congrArg Prod.fst hcon, congrArg Prod.snd hcon⟩
              · rw [if_neg (by omega), if_neg hnothing, if_neg (by omega), if_neg hdelta]

/-! ## Request id pool lemmas -/

theorem findFiles_fst (s : ExtHostState) (i e : Option GlobPattern) (m : Option Nat)
    (t : Bool) : (findFiles s i e m t).1 = s.requestIdPool := rfl

theorem findFiles_pool (s : ExtHostState) (i e : Option GlobPattern) (m : Option Nat)
    (t : Bool) : (findFiles s i e m t).2.requestIdPool = s.requestIdPool + 1 := rfl

theorem update_pool (isLinux : Bool) (s : ExtHostState) (ext : String)
    (io dopt : Option Int) (adds : List FolderToAdd) :
    (updateWorkspaceFolders isLinux s ext io dopt adds).2.requestIdPool = s.requestIdPool := by
  unfold updateWorkspaceFolders
  cases io with
  | none => rfl
  | some i =>
    cases dopt with
    | none => rfl
    | some d =>
      simp only
      split
      · rfl
      · split
        · rfl
        · split
          · rfl
          · split
            · rfl
            · rfl

theorem accept_pool (s : ExtHostState) (d : Option IWorkspaceData) :
    (acceptWorkspaceData s d).requestIdPool = s.requestIdPool := rfl

/-- Every controller step keeps the request id counter or bumps it. -/
theorem step_pool_ge (s : ExtHostState) (op : Op) :
    s.requestIdPool ≤ (step s op).requestIdPool := by
  cases op with
  | findFiles i e m t => rw [step, findFiles_pool]; omega
  | cancelRequested rid => exact Nat.le_refl _
  | acceptData d => rw [step, accept_pool]
  | update il ext i d adds => rw [step, update_pool]
  | saveAll b => exact Nat.le_refl _

/-- Every request id allocated along an operation sequence is at least
the counter value at the start of the sequence. -/
theorem findFilesIds_lb (ops : List Op) :
    ∀ (s : ExtHostState) (x : Nat), x ∈ findFilesIds s ops → s.requestIdPool ≤ x := by
  induction ops with
  | nil => intro s x hx; simp [findFilesIds] at hx
  | cons op ops ih =>
    intro s x hx
    cases op with
    | findFiles i e m t =>
      simp only [findFilesIds, findFiles_fst, List.mem_cons] at hx
      cases hx with
      | inl h => omega
      | inr h =>
        have h2 := ih (step s (Op.findFiles i e m t)) x h
        have h3 := step_pool_ge s (Op.findFiles i e m t)
        omega
    | cancelRequested rid =>
      exact Nat.le_trans (step_pool_ge s _) (ih _ x hx)
    | acceptData d =>
      exact Nat.le_trans (step_pool_ge s _) (ih _ x hx)
    | update il ext i d adds =>
      exact Nat.le_trans (step_pool_ge s _) (ih _ x hx)
    | saveAll b =>
      exact Nat.le_trans (step_pool_ge s _) (ih _ x hx)

/-! ## Index-assignment lemma for the spliced additions -/

theorem mapWithIndexFrom_index (validated : List FolderToAdd) :
    ∀ i : Nat,
      (mapWithIndexFrom (fun i f => ({ uri := f.uri, name := folderNameOf f, index := i } :
          WorkspaceFolder)) i validated).map (fun f => f.index) =
        List.range' i validated.length := by
  induction validated with
  | nil => intro i; rfl
  | cons f fs ih =>
    intro i
    simp [mapWithIndexFrom, List.range', ih]

/-- The folder records spliced in by `updateWorkspaceFolders` carry
index fields `0 .. k-1`, their positions inside the additions array. -/
theorem mkAddedFolders_indices (validated : List FolderToAdd) :
    (mkAddedFolders validated).map (fun f => f.index) = List.range validated.length := by
  rw [mkAddedFolders, mapWithIndex, mapWithIndexFrom_index, List.range_eq_range']

/-! ## PathIndex lemmas -/

theorem mem_set (t : PathIndex) (k : String) (v : WorkspaceFolder) (e : String × WorkspaceFolder)
    (h : e ∈ t.set k v) : e ∈ t ∨ e = (k, v) := by
  unfold PathIndex.set at h
  split at h
  · rw [List.mem_map] at h
    obtain ⟨a, ha, hae⟩ := h
    by_cases hk : (a.1 == k) = true
    · rw [if_pos hk] at hae; exact Or.inr hae.symm
    · rw [if_neg hk] at hae; rw [← hae]; exact Or.inl ha
  · rw [List.mem_append] at h
    cases h with
    | inl h2 => exact Or.inl h2
    | inr h2 => simp at h2; exact Or.inr h2

theorem key_mem_set_self (t : PathIndex) (k : String) (v : WorkspaceFolder) :
    ∃ w, (k, w) ∈ t.set k v := by
  unfold PathIndex.set
  split
  · rename_i hany
    rw [List.any_eq_true] at hany
    obtain ⟨a, ha, hk⟩ := hany
    exact ⟨v, List.mem_map.2 ⟨a, ha, by rw [if_pos hk]⟩⟩
  · exact ⟨v, List.mem_append.2 (Or.inr (by simp))⟩

theorem key_mem_set_of (t : PathIndex) (k' : String) (v' : WorkspaceFolder) (k : String)
    (h : ∃ w, (k, w) ∈ t) : ∃ w, (k, w) ∈ t.set k' v' := by
  obtain ⟨w, hw⟩ := h
  unfold PathIndex.set
  split
  · by_cases hk : k = k'
    · subst hk
      rename_i hany
      rw [List.any_eq_true] at hany
      obtain ⟨a, ha, hka⟩ := hany
      exact ⟨v', List.mem_map.2 ⟨a, ha, by rw [if_pos hka]⟩⟩
    · refine ⟨w, List.mem_map.2 ⟨(k, w), hw, ?_⟩⟩
      rw [if_neg (by simpa using hk)]
  · exact ⟨w, List.mem_append.2 (Or.inl hw)⟩

theorem key_mem_foldIndex (l : List WorkspaceFolder) :
    ∀ (t : PathIndex) (k : String), (∃ w, (k, w) ∈ t) → ∃ w, (k, w) ∈ foldIndex t l := by
  induction l with
  | nil => intro t k h; exact h
  | cons f fs ih =>
    intro t k h
    exact ih (t.set f.uri.toString f) k (key_mem_set_of t _ f k h)

theorem key_mem_foldIndex_of_mem (l : List WorkspaceFolder) :
    ∀ (t : PathIndex) (f : WorkspaceFolder), f ∈ l →
      ∃ w, (f.uri.toString, w) ∈ foldIndex t l := by
  induction l with
  | nil => intro t f h; cases h
  | cons g gs ih =>
    intro t f h
    rw [List.mem_cons] at h
    cases h with
    | inl h =>
      subst h
      exact key_mem_foldIndex gs _ _ (key_mem_set_self t _ f)
    | inr h => exact ih (t.set g.uri.toString g) f h

/-- Every folder of the list contributes its key to the built index. -/
theorem key_mem_buildIndex (l : List WorkspaceFolder) (f : WorkspaceFolder) (h : f ∈ l) :
    ∃ w, (f.uri.toString, w) ∈ buildIndex l :=
  key_mem_foldIndex_of_mem l [] f h

/-- Every entry of the built index is one of the folders of the list,
stored under its own rendered uri. -/
theorem mem_foldIndex (l : List WorkspaceFolder) :
    ∀ (t : PathIndex) (e : String × WorkspaceFolder), e ∈ foldIndex t l →
      e ∈ t ∨ ∃ f, f ∈ l ∧ e = (f.uri.toString, f) := by
  induction l with
  | nil => intro t e h; exact Or.inl h
  | cons f fs ih =>
    intro t e h
    cases ih (t.set f.uri.toString f) e h with
    | inl h2 =>
      cases mem_set t _ f e h2 with
      | inl h3 => exact Or.inl h3
      | inr h3 => exact Or.inr ⟨f, List.mem_cons_self f fs, h3⟩
    | inr h2 =>
      obtain ⟨g, hg, he⟩ := h2
      exact Or.inr ⟨g, List.mem_cons_of_mem f hg, he⟩

theorem mem_buildIndex (l : List WorkspaceFolder) (e : String × WorkspaceFolder)
    (h : e ∈ buildIndex l) : ∃ f, f ∈ l ∧ e = (f.uri.toString, f) := by
  cases mem_foldIndex l [] e h with
  | inl h2 => cases h2
  | inr h2 => exact h2

theorem foldl_longest_const (e0 : String × WorkspaceFolder) :
    ∀ es : List (String × WorkspaceFolder), (∀ x ∈ es, x = e0) →
      es.foldl (fun best x => if best.1.length < x.1.length then x else best) e0 = e0 := by
  intro es
  induction es with
  | nil => intro _; rfl
  | cons x xs ih =>
    intro h
    have hx : x = e0 := h x (List.mem_cons_self x xs)
    subst hx
    have step : (if x.1.length < x.1.length then x else x) = x := by
      rw [if_neg (Nat.lt_irrefl _)]
    simp only [List.foldl_cons, step]
    exact ih (fun y hy => h y (List.mem_cons_of_mem x hy))

/-- When the index holds exactly one entry whose key is an ancestor of
(or equal to) the query, `findSubstr` returns that entry's value. -/
theorem findSubstr_unique (t : PathIndex) (q : String) (e0 : String × WorkspaceFolder)
    (h0 : e0 ∈ t) (ha : isPathAncestorOrEqual e0.1 q = true)
    (huniq : ∀ e ∈ t, isPathAncestorOrEqual e.1 q = true → e = e0) :
    t.findSubstr q = some e0.2 := by
  unfold PathIndex.findSubstr
  have hmem : e0 ∈ t.filter (fun e => isPathAncestorOrEqual e.1 q) :=
    List.mem_filter.2 ⟨h0, ha⟩
  have hall : ∀ x ∈ t.filter (fun e => isPathAncestorOrEqual e.1 q), x = e0 := by
    intro x hx
    rw [List.mem_filter] at hx
    exact huniq x hx.1 hx.2
  split
  · rename_i hnil
    rw [hnil] at hmem
    cases hmem
  · rename_i e es heq
    have he : e = e0 := by
      have : e ∈ t.filter (fun e => isPathAncestorOrEqual e.1 q) := by
        rw [heq]; exact List.mem_cons_self e es
      exact hall e this
    subst he
    have hes : ∀ x ∈ es, x = e := by
      intro x hx
      refine hall x ?_
      rw [heq]
      exact List.mem_cons_of_mem e hx
    rw [foldl_longest_const e es hes]

/-- A key present in the index makes `get` succeed. -/
theorem get_isSome_of_key_mem (t : PathIndex) (k : String) (h : ∃ w, (k, w) ∈ t) :
    (t.get k).isSome = true := by
  obtain ⟨w, hw⟩ := h
  unfold PathIndex.get
  cases hfind : List.find? (fun e => e.1 == k) t with
  | none =>
    exfalso
    have := List.find?_eq_none.1 hfind (k, w) hw
    simp at this
  | some e => rfl

/-! ## Dedup-keeping-first-occurrence (spec formulation) -/

/-- Dedup following the spec's words: keep each element and drop every
later element equal to it, so the first occurrence of every equivalence
class survives in order. -/
def keepFirstBy {α : Type} (eq : α → α → Bool) : List α → List α
  | [] => []
  | x :: xs => x :: keepFirstBy eq (xs.filter (fun y => !(eq x y)))
termination_by l => l.length
decreasing_by
  simp_wf
  exact Nat.lt_succ_of_le (List.length_filter_le _ _)

theorem foldl_dedup_eq {α : Type} (eq : α → α → Bool) (l : List α) :
    ∀ acc : List α,
      List.foldl (fun acc f => if acc.any (fun g => eq g f) then acc else acc ++ [f]) acc l =
        acc ++ keepFirstBy eq (l.filter (fun y => !acc.any (fun g => eq g y))) := by
  induction l with
  | nil => intro acc; simp [keepFirstBy]
  | cons f fs ih =>
    intro acc
    by_cases h : acc.any (fun g => eq g f) = true
    · have hfilter : (f :: fs).filter (fun y => !acc.any (fun g => eq g y)) =
          fs.filter (fun y => !acc.any (fun g => eq g y)) := by
        rw [List.filter_cons]
        rw [h]
        simp
      rw [hfilter, List.foldl_cons]
      rw [if_pos h]
      exact ih acc
    · have hfilter : (f :: fs).filter (fun y => !acc.any (fun g => eq g y)) =
          f :: fs.filter (fun y => !acc.any (fun g => eq g y)) := by
        rw [List.filter_cons]
        rw [Bool.not_eq_true] at h
        rw [h]
        simp
      rw [hfilter, List.foldl_cons]
      rw [Bool.not_eq_true] at h
      rw [h]
      simp only [Bool.false_eq_true, if_false]
      rw [ih (acc ++ [f])]
      rw [keepFirstBy]
      have hpred : (fs.filter (fun y => !acc.any (fun g => eq g y))).filter
            (fun y => !(eq f y)) =
          fs.filter (fun y => !(acc ++ [f]).any (fun g => eq g y)) := by
        rw [List.filter_filter]
        apply List.filter_congr
        intro y _
        cases h1 : eq f y <;> cases h2 : acc.any (fun g => eq g y) <;>
          simp [List.any_append, h1, h2]
      rw [hpred]
      simp [List.append_assoc]

/-- The dedup loop of `updateWorkspaceFolders` keeps exactly the first
occurrence of each platform-equal uri. -/
theorem validateDistinct_eq_keepFirst (isLinux : Bool) (l : List FolderToAdd) :
    validateDistinct isLinux l =
      keepFirstBy (fun a b => uriIsEqual a.uri b.uri (!isLinux)) l := by
  have h := foldl_dedup_eq (fun a b => uriIsEqual a.uri b.uri (!isLinux)) l []
  simpa [validateDistinct] using h

/-! ## Concrete fixtures used by counterexamples and witnesses -/

def sampleFolderA : WorkspaceFolder := { uri := Uri.file "/a", name := "a", index := 0 }

def sampleFolderB : WorkspaceFolder := { uri := Uri.file "/b", name := "b", index := 1 }

def sampleFolderAB : WorkspaceFolder := { uri := Uri.file "/a/b", name := "b", index := 1 }

def sampleFolderX : WorkspaceFolder := { uri := Uri.file "/x", name := "x", index := 1 }

/-- A one-folder workspace rooted at `/a`. -/
def sampleDataA : Option IWorkspaceData :=
  some { id := "ws", name := "ws", folders := [sampleFolderA] }

/-- A two-folder workspace `/a`, `/b`. -/
def sampleDataAB : Option IWorkspaceData :=
  some { id := "ws", name := "ws", folders := [sampleFolderA, sampleFolderB] }

/-- Nested roots `/a` and `/a/b`. -/
def sampleDataNest : Option IWorkspaceData :=
  some { id := "ws", name := "ws", folders := [sampleFolderA, sampleFolderAB] }

/-- Distinct roots `/a` and `/x`. -/
def sampleDataAX : Option IWorkspaceData :=
  some { id := "ws", name := "ws", folders := [sampleFolderA, sampleFolderX] }

/-- A one-folder workspace whose folder is named `z` (used for the
comparator-cancellation counterexample). -/
def sampleDataZ : Option IWorkspaceData :=
  some { id := "ws", name := "ws", folders := [{ uri := Uri.file "/a", name := "z", index := 0 }] }

/-- An open workspace with no folders. -/
def sampleDataEmpty : Option IWorkspaceData :=
  some { id := "ws", name := "ws", folders := [] }

/-! ## Claim C1 -/

/-- C1, counterexample: starting from the workspace built from
`sampleDataA`, two consecutive `$acceptWorkspaceData` calls with the
identical snapshot both emit a ChangeEvent (the second is not
suppressed); both events have empty added and removed sets, refuting
both halves of the claim (`fire` is called unconditionally at the end
of `$acceptWorkspaceData`). -/
theorem acceptWorkspaceData_suppression_cex :
    (acceptWorkspaceData (acceptWorkspaceData (initialState sampleDataA) sampleDataA)
        sampleDataA).events =
      [{ added := [], removed := [] }, { added := [], removed := [] }] := by decide

/-- C1, amended: `$acceptWorkspaceData` emits exactly one ChangeEvent on
every call; when the accepted snapshot is identical to the current one
the event is emitted anyway, with empty added and removed sets (the
identifier-only diff of equal sorted lists is empty). -/
theorem acceptWorkspaceData_identical_emits_empty_event
    (s : ExtHostState) (data : Option IWorkspaceData) :
    (acceptWorkspaceData (acceptWorkspaceData s data) data).events =
      (acceptWorkspaceData s data).events ++ [{ added := [], removed := [] }] := by
  cases data with
  | none =>
    simp [acceptWorkspaceData, Workspace2.fromData, delta, deltaCore]
  | some d =>
    simp only [acceptWorkspaceData, Workspace2.fromData]
    rw [delta_self _ compareWorkspaceFolderByUri_self]

/-! ## Claim C2 -/

/-- C2, counterexample: from the two-folder workspace `/a`, `/b`,
deleting one folder at position 0 is accepted (`true`), but the
surviving folder keeps its old index field `1` at list position `0`:
the indices of the observable list are not the contiguous `0..N-1`. -/
theorem updateWorkspaceFolders_index_contiguity_cex :
    (updateWorkspaceFolders true (initialState sampleDataAB) "ext" (some 0) (some 1) []).1 =
        true ∧
    ¬(((getWorkspaceFolders
          (updateWorkspaceFolders true (initialState sampleDataAB) "ext" (some 0) (some 1)
            []).2).getD []).map (fun f => f.index) =
        List.range (((getWorkspaceFolders
          (updateWorkspaceFolders true (initialState sampleDataAB) "ext" (some 0) (some 1)
            []).2).getD []).length)) := by decide

/-- C2, amended: after an accepted `updateWorkspaceFolders` call the
observable folder list is the splice of the previous list; the folders
added in the call carry index fields `0..k-1` (their positions inside
the additions array, `range k`), while the folders retained from before
keep their previous index fields — the list is not renumbered to
positions `0..N-1`. -/
theorem updateWorkspaceFolders_index_assignment (isLinux : Bool) (s : ExtHostState)
    (ext : String) (io dopt : Option Int) (adds : List FolderToAdd) (w : Workspace2)
    (hw : s.workspace = some w)
    (ht : (updateWorkspaceFolders isLinux s ext io dopt adds).1 = true) :
    ∃ i d : Int, io = some i ∧ dopt = some d ∧
      ((getWorkspaceFolders (updateWorkspaceFolders isLinux s ext io dopt adds).2).getD
          []).map (fun f => f.index) =
        ((currentFolders s).take i.toNat).map (fun f => f.index) ++
          List.range (validateDistinct isLinux adds).length ++
          ((currentFolders s).drop (i.toNat + d.toNat)).map (fun f => f.index) := by
  obtain ⟨i, d, hio, hdopt, _, _, _, _, _, hs'⟩ :=
    update_true_elim isLinux s ext io dopt adds ht
  refine ⟨i, d, hio, hdopt, ?_⟩
  rw [hs']
  simp only [getWorkspaceFolders, hw, Option.map, Workspace2.trySetWorkspaceFolders,
    Option.getD_some, map_reviveFolder]
  rw [prospectiveFolders, spliceList]
  rw [List.map_append, List.map_append, mkAddedFolders_indices]

/-- C2, witness for the amended theorem: deleting folder 0 of the
two-folder workspace is accepted and the surviving list's index fields
are exactly the retained old indices (here `[1]`). -/
theorem updateWorkspaceFolders_index_assignment_witness :
    ∃ i d : Int, (some 0 : Option Int) = some i ∧ (some 1 : Option Int) = some d ∧
      ((getWorkspaceFolders (updateWorkspaceFolders true (initialState sampleDataAB) "ext"
          (some 0) (some 1) []).2).getD []).map (fun f => f.index) =
        ((currentFolders (initialState sampleDataAB)).take i.toNat).map (fun f => f.index) ++
          List.range (validateDistinct true []).length ++
          ((currentFolders (initialState sampleDataAB)).drop (i.toNat + d.toNat)).map
            (fun f => f.index) :=
  updateWorkspaceFolders_index_assignment true (initialState sampleDataAB) "ext" (some 0)
    (some 1) []
    ((initialState sampleDataAB).workspace.getD
      { id := "", name := "", folders := [], workspaceFolders := [], struct := [] })
    (by decide) (by decide)

/-! ## Claim C3 -/

/-- C3, counterexample: from the one-folder workspace `/a` named `z`,
replacing that folder by `/b` named `y` is a genuine change of the
prospective list (different identifier and different name), yet the
call returns `false` and changes nothing: the comparator adds the
identifier comparison (`-1`) and the name comparison (`+1`), so the sum
is `0` and the edit is suppressed as a no-op. -/
theorem updateWorkspaceFolders_noop_guard_cex :
    (updateWorkspaceFolders true (initialState sampleDataZ) "ext" (some 0) (some 1)
        [{ uri := Uri.file "/b", name := some "y" }]).1 = false ∧
    (updateWorkspaceFolders true (initialState sampleDataZ) "ext" (some 0) (some 1)
        [{ uri := Uri.file "/b", name := some "y" }]).2 = initialState sampleDataZ ∧
    prospectiveFolders (initialState sampleDataZ) 0 1
        (validateDistinct true [{ uri := Uri.file "/b", name := some "y" }]) ≠
      currentFolders (initialState sampleDataZ) := by decide

/-- C3, amended: once the validation checks pass, the call returns
`false` exactly when the current list and the prospective spliced list
match pairwise under the summed comparator
`compareWorkspaceFolderByUriAndName` (same length, and at each position
the identifier comparison plus the name comparison is zero).  A rename
with the same identifier gives a nonzero sum and is therefore never
suppressed, but a simultaneous identifier-and-name change whose two
comparisons cancel is also suppressed.  On `false` nothing is
dispatched and the state is unchanged; on `true` the edit is dispatched
to the proxy. -/
theorem updateWorkspaceFolders_noop_guard_characterization (isLinux : Bool)
    (s : ExtHostState) (ext : String) (adds : List FolderToAdd) (i d : Int)
    (hi : 0 ≤ i) (hd : 0 ≤ d)
    (hsome : ¬(d = 0 ∧ validateDistinct isLinux adds = []))
    (hrange : i + d ≤ ((currentFolders s).length : Int)) :
    ((updateWorkspaceFolders isLinux s ext (some i) (some d) adds).1 = false ↔
      List.Forall₂ (fun a b => compareWorkspaceFolderByUriAndName a b = 0)
        (currentFolders s)
        (prospectiveFolders s i.toNat d.toNat (validateDistinct isLinux adds))) ∧
    ((updateWorkspaceFolders isLinux s ext (some i) (some d) adds).1 = false →
      (updateWorkspaceFolders isLinux s ext (some i) (some d) adds).2 = s) ∧
    ((updateWorkspaceFolders isLinux s ext (some i) (some d) adds).1 = true →
      (updateWorkspaceFolders isLinux s ext (some i) (some d) adds).2.proxyCalls =
        s.proxyCalls ++
          [ProxyCall.updateWorkspaceFolders ext i d (validateDistinct isLinux adds)]) := by
  refine ⟨?_, update_state_of_false isLinux s ext (some i) (some d) adds, ?_⟩
  · unfold updateWorkspaceFolders
    simp only
    rw [if_neg (by omega), if_neg hsome, if_neg (by omega)]
    by_cases hc :
        (delta (currentFolders s)
            (prospectiveFolders s i.toNat d.toNat (validateDistinct isLinux adds))
            compareWorkspaceFolderByUriAndName).1 = [] ∧
        (delta (currentFolders s)
            (prospectiveFolders s i.toNat d.toNat (validateDistinct isLinux adds))
            compareWorkspaceFolderByUriAndName).2 = []
    · rw [if_pos hc]
      simp only [true_iff]
      rw [← delta_eq_nil_iff]
      exact Prod.ext hc.1 hc.2
    · rw [if_neg hc]
      constructor
      · intro h
        simp at h
      · intro hfa
        have hdl := (delta_eq_nil_iff compareWorkspaceFolderByUriAndName _ _).2 hfa
        exact absurd ⟨congrArg Prod.fst hdl, congrArg Prod.snd hdl⟩ hc
  · intro ht
    obtain ⟨i', d', hio, hdopt, _, _, _, _, _, hs'⟩ :=
      update_true_elim isLinux s ext (some i) (some d) adds ht
    cases hio; cases hdopt
    rw [hs']

/-- C3, witness for the amended theorem, at the concrete input that
replaces `/a` (named `a`) by `/b` (named `b`) in the one-folder
workspace: validation passes and the call is accepted, so the proxy
call is dispatched. -/
theorem updateWorkspaceFolders_noop_guard_characterization_witness :
    (updateWorkspaceFolders true (initialState sampleDataA) "ext" (some 0) (some 1)
        [{ uri := Uri.file "/b", name := none }]).2.proxyCalls =
      (initialState sampleDataA).proxyCalls ++
        [ProxyCall.updateWorkspaceFolders "ext" 0 1
          (validateDistinct true [{ uri := Uri.file "/b", name := none }])] :=
  (updateWorkspaceFolders_noop_guard_characterization true (initialState sampleDataA) "ext"
    [{ uri := Uri.file "/b", name := none }] 0 1 (by decide) (by decide) (by decide)
    (by decide)).2.2 (by decide)

/-! ## Claim C4 -/

/-- C4, counterexample: with no workspace open, adding `/a` at position
0 returns `true` (validation and the diff both pass), but the guarded
optimistic write `if (this._workspace)` is skipped, so
`getWorkspaceFolders` still answers `undefined` instead of the new
prospective list. -/
theorem updateWorkspaceFolders_optimistic_absent_cex :
    (updateWorkspaceFolders true (initialState none) "ext" (some 0) (some 0)
        [{ uri := Uri.file "/a", name := none }]).1 = true ∧
    getWorkspaceFolders
        (updateWorkspaceFolders true (initialState none) "ext" (some 0) (some 0)
          [{ uri := Uri.file "/a", name := none }]).2 = none ∧
    prospectiveFolders (initialState none) 0 0
        (validateDistinct true [{ uri := Uri.file "/a", name := none }]) ≠ [] := by decide

/-- C4, amended: for every current state whose workspace is present,
a `true`-returning `updateWorkspaceFolders` makes the prospective
spliced list immediately observable through `getWorkspaceFolders`,
before any remote acknowledgment (the proxy call is merely recorded);
with an absent workspace the call can still return `true` while the
folder list stays `undefined`. -/
theorem updateWorkspaceFolders_optimistic_visible (isLinux : Bool) (s : ExtHostState)
    (ext : String) (io dopt : Option Int) (adds : List FolderToAdd) (w : Workspace2)
    (hw : s.workspace = some w)
    (ht : (updateWorkspaceFolders isLinux s ext io dopt adds).1 = true) :
    ∃ i d : Int, io = some i ∧ dopt = some d ∧
      getWorkspaceFolders (updateWorkspaceFolders isLinux s ext io dopt adds).2 =
        some (prospectiveFolders s i.toNat d.toNat (validateDistinct isLinux adds)) := by
  obtain ⟨i, d, hio, hdopt, _, _, _, _, _, hs'⟩ :=
    update_true_elim isLinux s ext io dopt adds ht
  refine ⟨i, d, hio, hdopt, ?_⟩
  rw [hs']
  simp only [getWorkspaceFolders, hw, Option.map, Workspace2.trySetWorkspaceFolders,
    map_reviveFolder]

/-- C4, witness: deleting the folder of the one-folder workspace `/a`
and adding `/b` is accepted, and the new list is immediately visible. -/
theorem updateWorkspaceFolders_optimistic_visible_witness :
    getWorkspaceFolders
        (updateWorkspaceFolders true (initialState sampleDataA) "ext" (some 0) (some 1)
          [{ uri := Uri.file "/b", name := none }]).2 =
      some (prospectiveFolders (initialState sampleDataA) 0 1
        (validateDistinct true [{ uri := Uri.file "/b", name := none }])) := by
  obtain ⟨i, d, hio, hdopt, h⟩ :=
    updateWorkspaceFolders_optimistic_visible true (initialState sampleDataA) "ext"
      (some 0) (some 1) [{ uri := Uri.file "/b", name := none }]
      ((Workspace2.fromData sampleDataA).getD
        { id := "", name := "", folders := [], workspaceFolders := [], struct := [] })
      (by decide) (by decide)
  cases hio; cases hdopt
  exact h

/-! ## Claim C5 -/

/-- C5: every rejected `updateWorkspaceFolders` call returns `false`
and leaves the entire observable state (workspace model, events, proxy
calls, request counter) unchanged: a non-numeric or negative index or
delete count, nothing to delete with nothing left to add after the
dedup, and a range overrun are all rejected before any dispatch or
mutation; more generally every `false` return leaves the state
untouched.  The modelled function is total, so no rejection path can
throw. -/
theorem updateWorkspaceFolders_rejection_no_mutation :
    (∀ (isLinux : Bool) (s : ExtHostState) (ext : String) (dopt : Option Int)
        (adds : List FolderToAdd),
      updateWorkspaceFolders isLinux s ext none dopt adds = (false, s)) ∧
    (∀ (isLinux : Bool) (s : ExtHostState) (ext : String) (io : Option Int)
        (adds : List FolderToAdd),
      updateWorkspaceFolders isLinux s ext io none adds = (false, s)) ∧
    (∀ (isLinux : Bool) (s : ExtHostState) (ext : String) (i d : Int)
        (adds : List FolderToAdd), i < 0 ∨ d < 0 →
      updateWorkspaceFolders isLinux s ext (some i) (some d) adds = (false, s)) ∧
    (∀ (isLinux : Bool) (s : ExtHostState) (ext : String) (i : Int)
        (adds : List FolderToAdd), validateDistinct isLinux adds = [] →
      updateWorkspaceFolders isLinux s ext (some i) (some 0) adds = (false, s)) ∧
    (∀ (isLinux : Bool) (s : ExtHostState) (ext : String) (i d : Int)
        (adds : List FolderToAdd), ((currentFolders s).length : Int) < i + d →
      updateWorkspaceFolders isLinux s ext (some i) (some d) adds = (false, s)) ∧
    (∀ (isLinux : Bool) (s : ExtHostState) (ext : String) (io dopt : Option Int)
        (adds : List FolderToAdd),
      (updateWorkspaceFolders isLinux s ext io dopt adds).1 = false →
      (updateWorkspaceFolders isLinux s ext io dopt adds).2 = s) := by
  refine ⟨?_, ?_, ?_, ?_, ?_, ?_⟩
  · intro isLinux s ext dopt adds
    cases dopt <;> rfl
  · intro isLinux s ext io adds
    cases io <;> rfl
  · intro isLinux s ext i d adds h
    unfold updateWorkspaceFolders
    simp only
    rw [if_pos h]
  · intro isLinux s ext i adds h
    unfold updateWorkspaceFolders
    simp only
    by_cases hneg : i < 0 ∨ (0 : Int) < 0
    · rw [if_pos hneg]
    · rw [if_neg hneg, if_pos ⟨trivial, h⟩]
  · intro isLinux s ext i d adds h
    unfold updateWorkspaceFolders
    simp only
    by_cases hneg : i < 0 ∨ d < 0
    · rw [if_pos hneg]
    · rw [if_neg hneg]
      by_cases hnothing : d = 0 ∧ validateDistinct isLinux adds = []
      · rw [if_pos hnothing]
      · rw [if_neg hnothing, if_pos h]
  · intro isLinux s ext io dopt adds
    exact update_state_of_false isLinux s ext io dopt adds

/-- C5, witness: concrete rejected calls on the one-folder workspace —
negative index, zero-delete with an empty dedup result, and a range
overrun — each return `false` with the state unchanged. -/
theorem updateWorkspaceFolders_rejection_no_mutation_witness :
    updateWorkspaceFolders true (initialState sampleDataA) "ext" (some (-1)) (some 0)
        [{ uri := Uri.file "/b", name := none }] = (false, initialState sampleDataA) ∧
    updateWorkspaceFolders true (initialState sampleDataA) "ext" (some 0) (some 0) [] =
      (false, initialState sampleDataA) ∧
    updateWorkspaceFolders true (initialState sampleDataA) "ext" (some 1) (some 1) [] =
      (false, initialState sampleDataA) :=
  ⟨updateWorkspaceFolders_rejection_no_mutation.2.2.1 true (initialState sampleDataA) "ext"
      (-1) 0 [{ uri := Uri.file "/b", name := none }] (by decide),
   updateWorkspaceFolders_rejection_no_mutation.2.2.2.1 true (initialState sampleDataA) "ext"
      0 [] (by decide),
   updateWorkspaceFolders_rejection_no_mutation.2.2.2.2.1 true (initialState sampleDataA)
      "ext" 1 1 [] (by decide)⟩

/-! ## Claim C6 -/

theorem getWorkspaceFolder_eq_of_workspace (s : ExtHostState) (w : Workspace2)
    (h : s.workspace = some w) (u : Uri) (rp : Bool) :
    getWorkspaceFolder s u rp = w.getWorkspaceFolder u rp := by
  unfold getWorkspaceFolder
  rw [h]

theorem workspace2_getWorkspaceFolder_false (w : Workspace2) (u : Uri) :
    w.getWorkspaceFolder u false = w.struct.findSubstr u.toString := by
  unfold Workspace2.getWorkspaceFolder
  simp

theorem workspace2_getWorkspaceFolder_true_redirect (w : Workspace2) (u : Uri)
    (h : (w.struct.get u.toString).isSome = true) :
    w.getWorkspaceFolder u true =
      w.struct.findSubstr ({ u with path := dirname u.path }).toString := by
  unfold Workspace2.getWorkspaceFolder
  simp [h]

/-- C6, counterexample: with nested roots `/a` and `/a/b`, the path
`/a/b` is strictly nested under exactly one folder identifier (`/a`),
yet `getWorkspaceFolder` (without `resolveParent`) returns the `/a/b`
folder itself: the lookup is longest-ancestor-or-exact, and the exact
match wins over the strict ancestor. -/
theorem getWorkspaceFolder_strict_nesting_cex :
    ([sampleFolderA, sampleFolderAB].filter
        (fun f => strLeads (f.uri.toString ++ "/") (Uri.file "/a/b").toString)) =
      [sampleFolderA] ∧
    getWorkspaceFolder (initialState sampleDataNest) (Uri.file "/a/b") false =
      some sampleFolderAB ∧
    sampleFolderAB ≠ sampleFolderA := by decide

/-- C6, amended: (1) for every folder set and every path that is
strictly nested under exactly one folder's identifier **and is not
itself equal to any folder's identifier**, `getWorkspaceFolder` returns
that folder (an exact identifier match would win instead, as the
counterexample shows); (2) for a path equal to a stored folder's
identifier, `getWorkspaceFolder` with `resolveParent = true` answers
the containment query for the parent directory of that identifier —
the folder owning the parent, or `none` when no folder contains it. -/
theorem getWorkspaceFolder_containment (s : ExtHostState) (wid wname : String)
    (l : List WorkspaceFolder)
    (hw : s.workspace = Workspace2.fromData (some { id := wid, name := wname, folders := l })) :
    (∀ (u : Uri) (f0 : WorkspaceFolder), f0 ∈ l →
      (∀ f ∈ l, (strLeads (f.uri.toString ++ "/") u.toString = true ↔ f = f0)) →
      (∀ f ∈ l, f.uri.toString ≠ u.toString) →
      getWorkspaceFolder s u false = some f0) ∧
    (∀ v : Uri, (∃ f ∈ l, f.uri.toString = v.toString) →
      getWorkspaceFolder s v true =
        getWorkspaceFolder s { v with path := dirname v.path } false) := by
  simp only [Workspace2.fromData, map_reviveFolder] at hw
  constructor
  · intro u f0 hf0 huniq hne
    rw [getWorkspaceFolder_eq_of_workspace s _ hw, workspace2_getWorkspaceFolder_false]
    have hstrict : strLeads (f0.uri.toString ++ "/") u.toString = true :=
      (huniq f0 hf0).2 rfl
    have h0 : (f0.uri.toString, f0) ∈ buildIndex l := by
      obtain ⟨w', hw'⟩ := key_mem_buildIndex l f0 hf0
      obtain ⟨g, hg, hge⟩ := mem_buildIndex l _ hw'
      rw [Prod.mk.injEq] at hge
      have hgk : g.uri.toString = f0.uri.toString := hge.1.symm
      have hgs : strLeads (g.uri.toString ++ "/") u.toString = true := by
        rw [hgk]; exact hstrict
      have hgf : g = f0 := (huniq g hg).1 hgs
      rw [hge.2, hgf] at hw'
      exact hw'
    have ha : isPathAncestorOrEqual f0.uri.toString u.toString = true := by
      rw [isPathAncestorOrEqual, hstrict, Bool.or_true]
    refine findSubstr_unique (buildIndex l) u.toString (f0.uri.toString, f0) h0 ha ?_
    intro e he hpe
    obtain ⟨f, hf, hfe⟩ := mem_buildIndex l e he
    subst hfe
    rw [isPathAncestorOrEqual, Bool.or_eq_true] at hpe
    cases hpe with
    | inl hpe =>
      exact absurd (by simpa using hpe) (hne f hf)
    | inr hpe =>
      rw [(huniq f hf).1 hpe]
  · intro v hex
    obtain ⟨f, hf, hfk⟩ := hex
    rw [getWorkspaceFolder_eq_of_workspace s _ hw, getWorkspaceFolder_eq_of_workspace s _ hw]
    have hsome : (PathIndex.get (buildIndex l) v.toString).isSome = true := by
      refine get_isSome_of_key_mem _ _ ?_
      rw [← hfk]
      exact key_mem_buildIndex l f hf
    rw [workspace2_getWorkspaceFolder_true_redirect _ _ hsome,
      workspace2_getWorkspaceFolder_false]

/-- C6, witness: in the workspace with roots `/a` and `/x`, the path
`/a/b/c.txt` is strictly nested only under `/a` and equals no root, and
is resolved to the `/a` folder; querying the root `/a` itself with
`resolveParent = true` resolves the parent directory `/` (owned by no
folder, hence `none`). -/
theorem getWorkspaceFolder_containment_witness :
    getWorkspaceFolder (initialState sampleDataAX) (Uri.file "/a/b/c.txt") false =
        some sampleFolderA ∧
    getWorkspaceFolder (initialState sampleDataAX) (Uri.file "/a") true =
      getWorkspaceFolder (initialState sampleDataAX)
        { Uri.file "/a" with path := dirname (Uri.file "/a").path } false := by
  have h := getWorkspaceFolder_containment (initialState sampleDataAX) "ws" "ws"
    [sampleFolderA, sampleFolderX] (by decide)
  exact ⟨h.1 (Uri.file "/a/b/c.txt") sampleFolderA (by decide) (by decide) (by decide),
    h.2 (Uri.file "/a") ⟨sampleFolderA, by decide, by decide⟩⟩

/-! ## Claim C7 -/

theorem workspace2_getWorkspaceFolder_struct (w1 w2 : Workspace2) (h : w1.struct = w2.struct)
    (u : Uri) (rp : Bool) : w1.getWorkspaceFolder u rp = w2.getWorkspaceFolder u rp := by
  unfold Workspace2.getWorkspaceFolder
  rw [h]

/-- C7: after an accepted `updateWorkspaceFolders` call, only
`getWorkspaceFolders` reflects the new list.  `trySetWorkspaceFolders`
keeps the path index (`_structure`) and the base-class folder list
untouched, so every `getWorkspaceFolder` containment query and
`getPath` answer exactly as before the update; the stale model is only
replaced wholesale by the next `$acceptWorkspaceData`. -/
theorem trySetWorkspaceFolders_frame (isLinux : Bool) (s : ExtHostState) (ext : String)
    (io dopt : Option Int) (adds : List FolderToAdd) (w : Workspace2)
    (hw : s.workspace = some w)
    (ht : (updateWorkspaceFolders isLinux s ext io dopt adds).1 = true) :
    ∃ w', (updateWorkspaceFolders isLinux s ext io dopt adds).2.workspace = some w' ∧
      w'.struct = w.struct ∧ w'.folders = w.folders ∧
      (∀ (u : Uri) (rp : Bool),
        getWorkspaceFolder (updateWorkspaceFolders isLinux s ext io dopt adds).2 u rp =
          getWorkspaceFolder s u rp) ∧
      getPath (updateWorkspaceFolders isLinux s ext io dopt adds).2 = getPath s ∧
      (∃ i d : Int, io = some i ∧ dopt = some d ∧
        getWorkspaceFolders (updateWorkspaceFolders isLinux s ext io dopt adds).2 =
          some (prospectiveFolders s i.toNat d.toNat (validateDistinct isLinux adds))) ∧
      (∀ data : Option IWorkspaceData,
        (acceptWorkspaceData (updateWorkspaceFolders isLinux s ext io dopt adds).2
            data).workspace = Workspace2.fromData data) := by
  obtain ⟨i, d, hio, hdopt, _, _, _, _, _, hs'⟩ :=
    update_true_elim isLinux s ext io dopt adds ht
  have hws' : (updateWorkspaceFolders isLinux s ext io dopt adds).2.workspace =
      some (w.trySetWorkspaceFolders
        (prospectiveFolders s i.toNat d.toNat (validateDistinct isLinux adds))) := by
    rw [hs']
    simp [hw]
  refine ⟨_, hws', rfl, rfl, ?_, ?_, ?_, fun data => rfl⟩
  · intro u rp
    rw [getWorkspaceFolder_eq_of_workspace _ _ hws' u rp,
      getWorkspaceFolder_eq_of_workspace s w hw u rp]
    exact workspace2_getWorkspaceFolder_struct _ w rfl u rp
  · unfold getPath
    rw [hws', hw]
    rfl
  · refine ⟨i, d, hio, hdopt, ?_⟩
    unfold getWorkspaceFolders
    rw [hws']
    rw [Workspace2.trySetWorkspaceFolders]
    rw [map_reviveFolder]

/-- C7, witness: the accepted deletion of `/a` from the two-folder
workspace leaves the path index and base folder list untouched —
`getWorkspaceFolder` still resolves `/a/q.txt` and `getPath` still
answers `/a` — while `getWorkspaceFolders` already shows `[/b]`. -/
theorem trySetWorkspaceFolders_frame_witness :
    ∃ w', (updateWorkspaceFolders true (initialState sampleDataAB) "ext" (some 0) (some 1)
        []).2.workspace = some w' ∧
      w'.struct = ((initialState sampleDataAB).workspace.getD
        { id := "", name := "", folders := [], workspaceFolders := [], struct := [] }).struct ∧
      w'.folders = ((initialState sampleDataAB).workspace.getD
        { id := "", name := "", folders := [], workspaceFolders := [], struct := [] }).folders ∧
      (∀ (u : Uri) (rp : Bool),
        getWorkspaceFolder (updateWorkspaceFolders true (initialState sampleDataAB) "ext"
            (some 0) (some 1) []).2 u rp =
          getWorkspaceFolder (initialState sampleDataAB) u rp) ∧
      getPath (updateWorkspaceFolders true (initialState sampleDataAB) "ext" (some 0) (some 1)
          []).2 = getPath (initialState sampleDataAB) ∧
      (∃ i d : Int, (some 0 : Option Int) = some i ∧ (some 1 : Option Int) = some d ∧
        getWorkspaceFolders (updateWorkspaceFolders true (initialState sampleDataAB) "ext"
            (some 0) (some 1) []).2 =
          some (prospectiveFolders (initialState sampleDataAB) i.toNat d.toNat
            (validateDistinct true []))) ∧
      (∀ data : Option IWorkspaceData,
        (acceptWorkspaceData (updateWorkspaceFolders true (initialState sampleDataAB) "ext"
            (some 0) (some 1) []).2 data).workspace = Workspace2.fromData data) :=
  trySetWorkspaceFolders_frame true (initialState sampleDataAB) "ext" (some 0) (some 1) []
    ((initialState sampleDataAB).workspace.getD
      { id := "", name := "", folders := [], workspaceFolders := [], struct := [] })
    (by decide) (by decide)

/-! ## Claim C8 -/

/-- C8: the dedup of `workspaceFoldersToAdd` keeps exactly the first
occurrence of each identifier class — case-insensitively on
case-insensitive platforms (`isLinux = false`), case-sensitively on
Linux — and in particular adding `["/a", "/a"]` to the empty (but
open) workspace is accepted and adds exactly one folder; `/a` versus
`/A` dedups to one entry off Linux and stays two entries on Linux. -/
theorem updateWorkspaceFolders_dedup_first_occurrence :
    (∀ (isLinux : Bool) (l : List FolderToAdd),
      validateDistinct isLinux l =
        keepFirstBy (fun a b => uriIsEqual a.uri b.uri (!isLinux)) l) ∧
    (updateWorkspaceFolders true (initialState sampleDataEmpty) "ext" (some 0) (some 0)
        [{ uri := Uri.file "/a", name := none }, { uri := Uri.file "/a", name := none }]).1 =
      true ∧
    getWorkspaceFolders (updateWorkspaceFolders true (initialState sampleDataEmpty) "ext"
        (some 0) (some 0)
        [{ uri := Uri.file "/a", name := none }, { uri := Uri.file "/a", name := none }]).2 =
      some [{ uri := Uri.file "/a", name := "a", index := 0 }] ∧
    (validateDistinct true
        [{ uri := Uri.file "/a", name := none }, { uri := Uri.file "/A", name := none }]).length =
      2 ∧
    (validateDistinct false
        [{ uri := Uri.file "/a", name := none }, { uri := Uri.file "/A", name := none }]).length =
      1 := by
  refine ⟨validateDistinct_eq_keepFirst, ?_, ?_, ?_, ?_⟩ <;> decide

/-! ## Claim C9 -/

/-- C9: `getRelativePath` echoes an absent input back as `undefined`
and an empty path unchanged; with no owning folder it returns the input
path unchanged; with an owning folder (resolved with
`resolveParent = true`) it returns the path relative to that folder's
root, prefixed by the folder display name and `/` exactly when
`includeWorkspace` is `true` or is unspecified while the base folder
list has more than one entry.  Concretely: `/a/b/c.txt` gives
`b/c.txt` in the one-folder workspace `/a` and `a/b/c.txt` in the
two-folder workspace `/a`, `/x`. -/
theorem getRelativePath_spec :
    (∀ (s : ExtHostState) (inc : Option Bool),
      getRelativePath s PathOrUri.undef inc = none) ∧
    (∀ (s : ExtHostState) (inc : Option Bool),
      getRelativePath s (PathOrUri.str "") inc = some "") ∧
    (∀ (s : ExtHostState) (inc : Option Bool) (p : String), p ≠ "" →
      getWorkspaceFolder s (Uri.file p) true = none →
      getRelativePath s (PathOrUri.str p) inc = some p) ∧
    (∀ (s : ExtHostState) (inc : Option Bool) (u : Uri), u.fsPath ≠ "" →
      getWorkspaceFolder s u true = none →
      getRelativePath s (PathOrUri.uri u) inc = some u.fsPath) ∧
    (∀ (s : ExtHostState) (inc : Option Bool) (p : String) (folder : WorkspaceFolder),
      p ≠ "" → getWorkspaceFolder s (Uri.file p) true = some folder →
      getRelativePath s (PathOrUri.str p) inc =
        some (pathNormalize
          (if includeWorkspaceFlag s inc
            then folder.name ++ "/" ++ relative folder.uri.fsPath p
            else relative folder.uri.fsPath p) true)) ∧
    getRelativePath (initialState sampleDataA) (PathOrUri.str "/a/b/c.txt") none =
      some "b/c.txt" ∧
    getRelativePath (initialState sampleDataAX) (PathOrUri.str "/a/b/c.txt") none =
      some "a/b/c.txt" := by
  refine ⟨?_, ?_, ?_, ?_, ?_, by decide, by decide⟩
  · intro s inc
    rfl
  · intro s inc
    rfl
  · intro s inc p hp hnone
    simp [getRelativePath, hp, hnone]
  · intro s inc u hp hnone
    simp [getRelativePath, hp, hnone]
  · intro s inc p folder hp hfolder
    simp [getRelativePath, hp, hfolder]

/-- C9, witness: the no-owning-folder clause at a concrete input — with
the one-folder workspace `/a`, the outside path `/z/q.txt` is returned
unchanged. -/
theorem getRelativePath_spec_witness :
    getRelativePath (initialState sampleDataA) (PathOrUri.str "/z/q.txt") none =
      some "/z/q.txt" :=
  getRelativePath_spec.2.2.1 (initialState sampleDataA) none "/z/q.txt" (by decide) (by decide)

/-! ## Claim C10 -/

/-- C10: over every operation sequence — `findFiles` calls arbitrarily
interleaved with cancellations, authoritative pushes, folder edits and
saves — the request identifiers handed to `$startSearch` by the
`findFiles` calls are pairwise strictly increasing in call order: ids
are drawn from the single `_requestIdPool` counter, which only ever
grows, so no id is ever repeated. -/
theorem findFiles_requestIds_strictly_increasing :
    ∀ (ops : List Op) (s : ExtHostState),
      List.Pairwise (fun a b => a < b) (findFilesIds s ops) := by
  intro ops
  induction ops with
  | nil => intro s; simp [findFilesIds]
  | cons op ops ih =>
    intro s
    cases op with
    | findFiles i e m t =>
      simp only [findFilesIds, findFiles_fst]
      rw [List.pairwise_cons]
      constructor
      · intro x hx
        have h1 := findFilesIds_lb ops (step s (Op.findFiles i e m t)) x hx
        have h2 : (step s (Op.findFiles i e m t)).requestIdPool = s.requestIdPool + 1 :=
          findFiles_pool s i e m t
        omega
      · exact ih _
    | cancelRequested rid => simp only [findFilesIds]; exact ih _
    | acceptData d => simp only [findFilesIds]; exact ih _
    | update il ext i d adds => simp only [findFilesIds]; exact ih _
    | saveAll b => simp only [findFilesIds]; exact ih _
